import Mathlib

/-!
Verification of the console bridge in src/cli.py.

The bridge (class CLIInput) owns two queues (to_user_queue, from_user_queue),
an input stream and an output stream, a running flag, and two loop threads:
a reader loop (_read_commands_from_prompt) and a writer loop
(_output_commands_to_prompt).  The definitions below embed the relevant
pieces of that code; machine-level details that the claims do not touch
(logging, thread identities) are omitted.
-/

namespace ConsoleBridge

/-- Embeds the module constant OUTPUT_QUEUE_BLOCK_TIME = 0.25 seconds. -/
def OUTPUT_QUEUE_BLOCK_TIME : ℚ := 1 / 4

/-- One result of a call to the input stream readline method: either a
string (the empty string signals end-of-stream, per the file protocol) or
a raised I/O error. -/
inductive ReadEvent
  | ok (s : String)
  | err
deriving DecidableEq

/-- How one run of the reader loop body ends: brk models the break taken on
end-of-stream, exn models an I/O error escaping the loop (there is no
try/except around readline in _read_commands_from_prompt). -/
inductive ReaderExit
  | brk
  | exn
deriving DecidableEq

/-- Embeds the Python expression raw_command.rstrip with a newline-only
strip set (cli.py line 150): removes every trailing newline character. -/
def rstripNL (s : String) : String :=
  String.mk ((s.data.reverse.dropWhile (fun c => c == '\n')).reverse)

/-- Follows the words of the specification, for comparison with rstripNL:
strip exactly one trailing newline, leaving any further trailing newlines
intact. -/
def stripOneTrailingNewlineSpec (s : String) : String :=
  if s.data.getLast? = Option.some '\n' then String.mk s.data.dropLast else s

/-- Result of running the reader loop: the values put on the inbound queue
in order (Option.none embeds the Python None sentinel), how the loop ended,
and the part of the stream it never consumed. -/
structure RRun where
  outs : List (Option String)
  exit : ReaderExit
  rest : List ReadEvent
deriving DecidableEq

/-- Embeds the reader loop _read_commands_from_prompt (cli.py lines 133-154)
running with the running flag true throughout.  The stream is the list of
results successive readline calls produce; an exhausted list is a stream at
end-of-stream, where readline returns the empty string (as a real file at
EOF does).  On the empty string the loop puts None and breaks; on any other
string it puts the rstrip-ed line and continues; a raised I/O error escapes
the loop at once. -/
def readerRun : List ReadEvent → RRun
  | [] => ⟨[Option.none], ReaderExit.brk, []⟩
  | ReadEvent.ok s :: r =>
      if s = "" then ⟨[Option.none], ReaderExit.brk, r⟩
      else
        let t := readerRun r
        ⟨Option.some (rstripNL s) :: t.outs, t.exit, t.rest⟩
  | ReadEvent.err :: r => ⟨[], ReaderExit.exn, r⟩

/-- Outcome of a call to queue.Queue.get in a window where no producer adds
an item. -/
inductive GetOutcome
  | got (m : String)
  | timedOutEmpty
  | raisedEmptyNonblock
  | blockForever
deriving DecidableEq

/-- Python truthiness of a number: anything nonzero is truthy. -/
def pyTruthy (x : ℚ) : Bool := decide (x ≠ 0)

/-- Embeds the semantics of queue.Queue.get(block, timeout) from the Python
standard library, for the window in which no producer adds an item: with an
item queued it returns the head; on an empty queue it raises Empty at once
when block is falsy, waits the timeout then raises Empty when block is
truthy and a timeout is given, and waits unboundedly when block is truthy
and timeout is None. -/
def pyQueueGet (q : List String) (block : Bool) (timeout : Option ℚ) : GetOutcome :=
  match q with
  | m :: _ => GetOutcome.got m
  | [] =>
      if block then
        match timeout with
        | Option.none => GetOutcome.blockForever
        | Option.some _ => GetOutcome.timedOutEmpty
      else GetOutcome.raisedEmptyNonblock

/-- Embeds the call self._to_user_queue.get(OUTPUT_QUEUE_BLOCK_TIME) at
cli.py line 165.  The signature of Queue.get is get(block=True,
timeout=None), so the single positional argument 0.25 is bound to the
block parameter (truthy) and timeout stays None. -/
def writerGet (q : List String) : GetOutcome :=
  pyQueueGet q (pyTruthy OUTPUT_QUEUE_BLOCK_TIME) Option.none

/-- Follows the words of the specification, for comparison with writerGet:
the writer waits on the outbound channel for at most the poll interval. -/
def intendedWriterGet (q : List String) : GetOutcome :=
  pyQueueGet q true (Option.some OUTPUT_QUEUE_BLOCK_TIME)

/-- One event on the output stream: a write call or a flush call. -/
inductive OutEvent
  | write (s : String)
  | flush
deriving DecidableEq

/-- What one iteration of the writer loop body does, given the current
outbound queue: either writes a message (with the queue it leaves behind),
blocks forever inside get, or falls through the except branch and goes back
to the loop top to re-check the running flag. -/
inductive WriterIterResult
  | wrote (evs : List OutEvent) (q2 : List String)
  | blockedForever
  | recheckFlag (q2 : List String)
deriving DecidableEq

/-- Embeds one iteration of the writer loop _output_commands_to_prompt
(cli.py lines 161-171): try get; on queue.Empty pass (back to the loop top,
which re-checks the running flag); otherwise write the message with a
newline appended by the format string, then flush. -/
def writerLoopIter (q : List String) : WriterIterResult :=
  match writerGet q with
  | GetOutcome.got m =>
      WriterIterResult.wrote [OutEvent.write (m ++ "\n"), OutEvent.flush] q.tail
  | GetOutcome.timedOutEmpty => WriterIterResult.recheckFlag q
  | GetOutcome.raisedEmptyNonblock => WriterIterResult.recheckFlag q
  | GetOutcome.blockForever => WriterIterResult.blockedForever

/-- Timed trace of the writer loop over a time-stamped arrival sequence on
the outbound queue, with the running flag true throughout.  Because the get
call has timeout None it wakes exactly when a message arrives; the write
and flush calls are modeled as instantaneous, so each message is written
and flushed at its own arrival time. -/
def writerTimedRun : List (ℚ × String) → List (ℚ × OutEvent)
  | [] => []
  | (t, m) :: rest =>
      (t, OutEvent.write (m ++ "\n")) :: (t, OutEvent.flush) :: writerTimedRun rest

/-- Bridge state: the running flag, the pending input stream, the two
queues, and how many reader and writer loop threads have been launched
(start creates and starts fresh Thread objects each time). -/
structure Sys where
  running : Bool
  stdin : List ReadEvent
  inQ : List (Option String)
  outQ : List String
  readerSpawns : Nat
  writerSpawns : Nat
deriving DecidableEq

/-- Embeds CLIInput.start (cli.py lines 72-84): a no-op when the running
flag is already true, otherwise it sets the flag and _start_threads
launches one fresh reader thread and one fresh writer thread. -/
def startOp (s : Sys) : Sys :=
  if s.running then s
  else { s with running := true,
                readerSpawns := s.readerSpawns + 1,
                writerSpawns := s.writerSpawns + 1 }

/-- State effect of CLIInput.stop (cli.py lines 86-94): a no-op when the
flag is already false, otherwise it clears the flag; the joins performed by
_join_threads read thread state only and touch neither queue. -/
def stopPure (s : Sys) : Sys :=
  if s.running then { s with running := false } else s

/-- Outcome of one threading.Thread.join call with a timeout: the thread
finished in time, or the timeout elapsed (join then returns normally with
no exception), or join raised RuntimeError (its only documented exception,
for joining an unstarted or the current thread). -/
inductive JoinOutcome
  | completed
  | timedOut
  | raisedRuntimeError
deriving DecidableEq

/-- The Python exceptions this component can see from join. -/
inductive PyExn
  | runtimeError
deriving DecidableEq

/-- Embeds threading.Thread.join(timeout): a timeout is not an exception;
only RuntimeError can be raised. -/
def threadJoin : JoinOutcome → Except PyExn Unit
  | JoinOutcome.completed => Except.ok ()
  | JoinOutcome.timedOut => Except.ok ()
  | JoinOutcome.raisedRuntimeError => Except.error PyExn.runtimeError

/-- Embeds one try/except RuntimeError block of _join_threads (cli.py lines
124-131): the exception is logged and swallowed. -/
def swallowRuntimeError (r : Except PyExn Unit) : Except PyExn Unit :=
  match r with
  | Except.error PyExn.runtimeError => Except.ok ()
  | r => r

/-- Embeds _join_threads (cli.py lines 116-131): join each thread with a
grace period of 2 * OUTPUT_QUEUE_BLOCK_TIME, each join wrapped in its own
try/except RuntimeError. -/
def joinThreadsOp (j1 j2 : JoinOutcome) : Except PyExn Unit :=
  match swallowRuntimeError (threadJoin j1) with
  | Except.ok _ => swallowRuntimeError (threadJoin j2)
  | Except.error e => Except.error e

/-- Embeds CLIInput.stop including the exception behaviour of
_join_threads, parametrised by the outcome of each join. -/
def stopOp (j1 j2 : JoinOutcome) (s : Sys) : Except PyExn Sys :=
  if s.running then
    match joinThreadsOp j1 j2 with
    | Except.ok _ => Except.ok { s with running := false }
    | Except.error e => Except.error e
  else Except.ok s

/-- A spawned reader loop thread runs to its exit while the running flag
stays true: it consumes the stream as readerRun does and appends its puts
to the inbound queue. -/
def runReaderSession (s : Sys) : Sys :=
  if s.running then
    let r := readerRun s.stdin
    { s with stdin := r.rest, inQ := s.inQ ++ r.outs }
  else s

/-- Where Python code runs: an uncaught exception in the main thread
aborts the process, while an exception escaping the target of a spawned
threading.Thread is caught and logged by the thread bootstrap and
terminates only that thread. -/
inductive ThreadKind
  | mainThread
  | spawnedThread
deriving DecidableEq

/-- Whether an uncaught exception in the given kind of thread crashes the
owning process. -/
def uncaughtExnCrashesProcess : ThreadKind → Bool
  | ThreadKind.mainThread => true
  | ThreadKind.spawnedThread => false

/-- The concrete run used against claim C2: a stream that is at
end-of-stream from the outset, with the schedule start; reader runs to
exit; stop; start; the freshly spawned reader runs to exit. -/
def eofTwiceSys : Sys :=
  runReaderSession (startOp (stopPure (runReaderSession (startOp
    { running := false, stdin := [], inQ := [], outQ := [],
      readerSpawns := 0, writerSpawns := 0 }))))

/-- A line as a real readline produces it: nonempty, and no character other
than (possibly) the final one is a newline. -/
def isLine (s : String) : Bool :=
  decide (s.data ≠ [] ∧ ∀ c ∈ s.data.dropLast, c ≠ '\n')

/-! Helper lemmas. -/

theorem readerRun_ok_cons (s : String) (r : List ReadEvent) (h : s ≠ "") :
    readerRun (ReadEvent.ok s :: r)
      = ⟨Option.some (rstripNL s) :: (readerRun r).outs,
         (readerRun r).exit, (readerRun r).rest⟩ := by
  simp [readerRun, h]

theorem readerRun_prefixMap (pre : List String) (r : List ReadEvent)
    (h : ∀ l ∈ pre, l ≠ "") :
    readerRun (pre.map ReadEvent.ok ++ r)
      = ⟨pre.map (fun l => Option.some (rstripNL l)) ++ (readerRun r).outs,
         (readerRun r).exit, (readerRun r).rest⟩ := by
  induction pre with
  | nil => simp
  | cons l ls ih =>
      have hl : l ≠ "" := h l (by simp)
      have hls : ∀ x ∈ ls, x ≠ "" := fun x hx => h x (by simp [hx])
      simp [readerRun_ok_cons, hl, ih hls]

theorem count_none_mapSome (xs : List String) (f : String → String) :
    ((xs.map (fun l => Option.some (f l))).count (Option.none : Option String)) = 0 := by
  rw [List.count_eq_zero]
  simp

theorem pyTruthy_blockTime : pyTruthy OUTPUT_QUEUE_BLOCK_TIME = true := by
  norm_num [pyTruthy, OUTPUT_QUEUE_BLOCK_TIME]

/-! Theorems for the claims. -/

/-- C1: the claim says each wait of the writer loop on the outbound channel
lasts at most OUTPUT_QUEUE_BLOCK_TIME and that, when the interval elapses
with no message, the loop re-checks the running flag.  The code calls
get(OUTPUT_QUEUE_BLOCK_TIME), which binds 0.25 to the block parameter of
Queue.get(block=True, timeout=None), so the wait on an empty queue is
unbounded: the loop body blocks forever and never reaches the flag
re-check, while the call the specification describes would time out and
re-check.  This contradicts the comments in the code itself (cli.py lines
40-44 and 163-164). -/
theorem c1_writer_wait_unbounded :
    writerGet [] = GetOutcome.blockForever ∧
    writerLoopIter [] = WriterIterResult.blockedForever ∧
    intendedWriterGet [] = GetOutcome.timedOutEmpty ∧
    pyTruthy OUTPUT_QUEUE_BLOCK_TIME = true := by
  refine ⟨?_, ?_, ?_, pyTruthy_blockTime⟩ <;>
    simp [writerGet, writerLoopIter, intendedWriterGet, pyQueueGet, pyTruthy_blockTime]

/-- C2 counterexample: the claim says that once end-of-stream is seen, no
further value ever appears on the inbound channel, even if start is called
again after stop.  On a stream at end-of-stream from the outset, the
schedule start; reader runs; stop; start; reader runs puts the None
sentinel on the inbound queue twice, because the second start launches a
fresh reader thread whose readline again returns the empty string. -/
theorem c2_restart_two_sentinels :
    eofTwiceSys.inQ = [Option.none, Option.none] ∧
    eofTwiceSys.inQ.count (Option.none : Option String) = 2 ∧
    eofTwiceSys.readerSpawns = 2 := by
  refine ⟨?_, ?_, ?_⟩ <;> rfl

/-- C2 as amended: within one start session, a reader loop that reaches
end-of-stream puts the sentinel exactly once, as the last value it ever
puts, and exits through the break; but a later start launches a fresh
reader loop which can put a further sentinel. -/
theorem c2_single_eof_single_sentinel (pre : List String) (rest : List ReadEvent)
    (h : ∀ l ∈ pre, l ≠ "") :
    readerRun (pre.map ReadEvent.ok ++ ReadEvent.ok "" :: rest)
      = ⟨pre.map (fun l => Option.some (rstripNL l)) ++ [Option.none],
         ReaderExit.brk, rest⟩ ∧
    (pre.map (fun l => Option.some (rstripNL l))
        ++ [Option.none]).count (Option.none : Option String) = 1 := by
  constructor
  · rw [readerRun_prefixMap pre _ h]
    simp [readerRun]
  · simp [List.count_append, count_none_mapSome]

theorem c2_single_eof_single_sentinel_witness :
    (∀ l ∈ (["hi\n"] : List String), l ≠ "") ∧
    (readerRun ((["hi\n"] : List String).map ReadEvent.ok ++ ReadEvent.ok "" :: [])
      = ⟨(["hi\n"] : List String).map (fun l => Option.some (rstripNL l)) ++ [Option.none],
         ReaderExit.brk, []⟩ ∧
    ((["hi\n"] : List String).map (fun l => Option.some (rstripNL l))
        ++ [Option.none]).count (Option.none : Option String) = 1) :=
  ⟨by decide, c2_single_eof_single_sentinel ["hi\n"] [] (by decide)⟩

/-- C3: an I/O error raised by readline has no handler inside
_read_commands_from_prompt, so it ends the reader loop at that point, just
as end-of-stream ends it (nothing after the error is read), and since the
loop runs on a spawned threading.Thread the uncaught exception is absorbed
by the thread bootstrap and does not crash the owning process. -/
theorem c3_ioerror_like_eof (pre : List String) (rest : List ReadEvent)
    (h : ∀ l ∈ pre, l ≠ "") :
    readerRun (pre.map ReadEvent.ok ++ ReadEvent.err :: rest)
      = ⟨pre.map (fun l => Option.some (rstripNL l)), ReaderExit.exn, rest⟩ ∧
    uncaughtExnCrashesProcess ThreadKind.spawnedThread = false := by
  refine ⟨?_, rfl⟩
  rw [readerRun_prefixMap pre _ h]
  simp [readerRun]

theorem c3_ioerror_like_eof_witness :
    (∀ l ∈ (["a\n"] : List String), l ≠ "") ∧
    (readerRun ((["a\n"] : List String).map ReadEvent.ok ++ ReadEvent.err :: [])
      = ⟨(["a\n"] : List String).map (fun l => Option.some (rstripNL l)),
         ReaderExit.exn, []⟩ ∧
    uncaughtExnCrashesProcess ThreadKind.spawnedThread = false) :=
  ⟨by decide, c3_ioerror_like_eof ["a\n"] [] (by decide)⟩

/-- C7: start is a no-op when the running flag is already set, launching no
further threads, and stop is a no-op when the flag is already clear, so a
second consecutive call of either has no observable effect on the bridge
state. -/
theorem c7_start_stop_idempotent (s : Sys) :
    startOp (startOp s) = startOp s ∧ stopPure (stopPure s) = stopPure s := by
  cases hr : s.running <;> simp [startOp, stopPure, hr]

/-- C8: stop never raises: each join in _join_threads either returns
normally (a timeout is not an exception for Thread.join) or raises a
RuntimeError that the surrounding try/except swallows, so stop returns
normally for every join outcome, and the state it returns has the running
flag false whatever state it started from. -/
theorem c8_stop_never_raises (j1 j2 : JoinOutcome) (s : Sys) :
    stopOp j1 j2 s = Except.ok (stopPure s) ∧ (stopPure s).running = false := by
  constructor
  · cases j1 <;> cases j2 <;> cases hr : s.running <;>
      simp [stopOp, stopPure, joinThreadsOp, swallowRuntimeError, threadJoin, hr]
  · cases hr : s.running <;> simp [stopPure, hr]

/-- C9: neither start nor stop reads, drains, or writes either queue: both
queues are exactly what they were before the call, for every join outcome,
so everything enqueued before the transition is still retrievable exactly
once afterwards. -/
theorem c9_queues_framed (j1 j2 : JoinOutcome) (s : Sys) :
    (startOp s).inQ = s.inQ ∧ (startOp s).outQ = s.outQ ∧
    (stopPure s).inQ = s.inQ ∧ (stopPure s).outQ = s.outQ ∧
    stopOp j1 j2 s = Except.ok (stopPure s) := by
  refine ⟨?_, ?_, ?_, ?_, ?_⟩ <;>
    cases j1 <;> cases j2 <;> cases hr : s.running <;>
      simp [startOp, stopPure, stopOp, joinThreadsOp, swallowRuntimeError, threadJoin, hr]

theorem dropWhile_eq_self_of_forall {α : Type} (p : α → Bool) (l : List α)
    (h : ∀ a ∈ l, p a = false) : l.dropWhile p = l := by
  cases l with
  | nil => rfl
  | cons a t => simp [List.dropWhile_cons, h a (by simp)]

theorem head?_dropWhile_false {α : Type} (p : α → Bool) (l : List α) (a : α)
    (h : (l.dropWhile p).head? = Option.some a) : p a = false := by
  induction l with
  | nil => simp [List.dropWhile] at h
  | cons x t ih =>
      rw [List.dropWhile_cons] at h
      by_cases hx : p x
      · rw [if_pos hx] at h
        exact ih h
      · rw [if_neg hx] at h
        simp at h
        rw [← h]
        exact Bool.not_eq_true _ ▸ (by simpa using hx)

theorem rstripNL_decomp (s : String) :
    s.data = (rstripNL s).data
        ++ List.replicate ((s.data.reverse.takeWhile (fun c => c == '\n')).length) '\n' ∧
    (rstripNL s).data.getLast? ≠ Option.some '\n' := by
  constructor
  · have htw : s.data.reverse.takeWhile (fun c => c == '\n')
        = List.replicate ((s.data.reverse.takeWhile (fun c => c == '\n')).length) '\n' := by
      apply List.eq_replicate_length.mpr
      intro b hb
      have hpb := List.mem_takeWhile_imp hb
      simpa using hpb
    have hrepl : (s.data.reverse.takeWhile (fun c => c == '\n')).reverse
        = List.replicate ((s.data.reverse.takeWhile (fun c => c == '\n')).length) '\n' := by
      conv_lhs => rw [htw]
      rw [List.reverse_replicate]
    calc s.data = s.data.reverse.reverse := by rw [List.reverse_reverse]
      _ = (s.data.reverse.takeWhile (fun c => c == '\n')
            ++ s.data.reverse.dropWhile (fun c => c == '\n')).reverse := by
            rw [List.takeWhile_append_dropWhile]
      _ = (s.data.reverse.dropWhile (fun c => c == '\n')).reverse
            ++ (s.data.reverse.takeWhile (fun c => c == '\n')).reverse := by
            rw [List.reverse_append]
      _ = (rstripNL s).data
            ++ List.replicate ((s.data.reverse.takeWhile (fun c => c == '\n')).length) '\n' := by
            rw [hrepl]
            rfl
  · intro hc
    have : (rstripNL s).data.getLast?
        = (s.data.reverse.dropWhile (fun c => c == '\n')).head? := by
      rw [rstripNL]
      exact List.getLast?_reverse _
    rw [this] at hc
    have := head?_dropWhile_false (fun c => c == '\n') s.data.reverse '\n' hc
    simp at this

theorem rstripNL_isLine (l : String) (h : isLine l = true) :
    rstripNL l = stripOneTrailingNewlineSpec l := by
  have h2 := of_decide_eq_true h
  obtain ⟨hd, hnl⟩ := h2
  have hsplit := List.dropLast_append_getLast hd
  have hrev : l.data.reverse = l.data.getLast hd :: l.data.dropLast.reverse := by
    conv_lhs => rw [← hsplit]
    rw [List.reverse_append]
    rfl
  have hdropLast : ∀ c ∈ l.data.dropLast.reverse, (c == '\n') = false := by
    intro c hc
    simpa using hnl c (List.mem_reverse.mp hc)
  by_cases hg : l.data.getLast hd = '\n'
  · have hrs : rstripNL l = String.mk l.data.dropLast := by
      rw [rstripNL, hrev]
      rw [List.dropWhile_cons, if_pos (by simp [hg])]
      rw [dropWhile_eq_self_of_forall _ _ hdropLast, List.reverse_reverse]
    have hsp : stripOneTrailingNewlineSpec l = String.mk l.data.dropLast := by
      rw [stripOneTrailingNewlineSpec,
          if_pos (by rw [List.getLast?_eq_getLast_of_ne_nil hd, hg])]
    rw [hrs, hsp]
  · have hrs : rstripNL l = l := by
      rw [rstripNL, hrev]
      rw [List.dropWhile_cons, if_neg (by simp [hg])]
      rw [← hrev, List.reverse_reverse]
    have hsp : stripOneTrailingNewlineSpec l = l := by
      rw [stripOneTrailingNewlineSpec,
          if_neg (by rw [List.getLast?_eq_getLast_of_ne_nil hd]; simp [hg])]
    rw [hrs, hsp]

theorem ne_empty_of_isLine (l : String) (h : isLine l = true) : l ≠ "" := by
  intro he
  exact (of_decide_eq_true h).1 (he ▸ rfl)

/-- C4 counterexample: the claim says the reader strips exactly one
trailing newline, leaving any further trailing newlines intact.  On the raw
line a-newline-newline the code pushes the bare string a (rstrip removes
every trailing newline), not the a-newline that stripping exactly one would
leave. -/
theorem c4_not_exactly_one :
    (readerRun [ReadEvent.ok "a\n\n"]).outs.head? = Option.some (Option.some "a") ∧
    stripOneTrailingNewlineSpec "a\n\n" = "a\n" ∧
    ("a" : String) ≠ "a\n" := by
  refine ⟨?_, ?_, ?_⟩ <;> decide

/-- C4 as amended: for every nonempty raw line, the reader pushes the line
with every trailing newline character removed: the pushed string, followed
by some number of newline characters, reconstructs the raw line, and the
pushed string itself does not end in a newline. -/
theorem c4_strips_all_trailing (s : String) (rest : List ReadEvent) (h : s ≠ "") :
    ∃ k, (readerRun (ReadEvent.ok s :: rest)).outs.head?
          = Option.some (Option.some (rstripNL s)) ∧
      s.data = (rstripNL s).data ++ List.replicate k '\n' ∧
      (rstripNL s).data.getLast? ≠ Option.some '\n' := by
  refine ⟨_, ?_, (rstripNL_decomp s).1, (rstripNL_decomp s).2⟩
  rw [readerRun_ok_cons s rest h]
  rfl

theorem c4_strips_all_trailing_witness :
    ("b\n\n" : String) ≠ "" ∧
    (∃ k, (readerRun (ReadEvent.ok "b\n\n" :: [])).outs.head?
          = Option.some (Option.some (rstripNL "b\n\n")) ∧
      ("b\n\n" : String).data = (rstripNL "b\n\n").data ++ List.replicate k '\n' ∧
      (rstripNL "b\n\n").data.getLast? ≠ Option.some '\n') :=
  ⟨by decide, c4_strips_all_trailing "b\n\n" [] (by decide)⟩

/-- C5: for a stream producing a sequence of genuine lines (each nonempty,
with no newline other than possibly a single trailing one) and then
end-of-stream, the inbound queue receives exactly those lines in FIFO
order, each with its trailing newline stripped, followed by the one
end-of-input sentinel. -/
theorem c5_fifo_order_strip (lines : List String)
    (h : ∀ l ∈ lines, isLine l = true) :
    readerRun (lines.map ReadEvent.ok)
      = ⟨lines.map (fun l => Option.some (stripOneTrailingNewlineSpec l))
            ++ [Option.none], ReaderExit.brk, []⟩ := by
  have h2 : ∀ l ∈ lines, l ≠ "" := fun l hl => ne_empty_of_isLine l (h l hl)
  have h3 := readerRun_prefixMap lines [] h2
  rw [List.append_nil] at h3
  rw [h3]
  have hmap : lines.map (fun l => Option.some (rstripNL l))
      = lines.map (fun l => Option.some (stripOneTrailingNewlineSpec l)) :=
    List.map_congr_left fun l hl => congrArg Option.some (rstripNL_isLine l (h l hl))
  rw [hmap]
  rfl

theorem c5_fifo_order_strip_witness :
    (∀ l ∈ (["This is some test input\n"] : List String), isLine l = true) ∧
    readerRun ((["This is some test input\n"] : List String).map ReadEvent.ok)
      = ⟨(["This is some test input\n"] : List String).map
            (fun l => Option.some (stripOneTrailingNewlineSpec l))
            ++ [Option.none], ReaderExit.brk, []⟩ :=
  ⟨by decide, c5_fifo_order_strip ["This is some test input\n"] (by decide)⟩

theorem writerTimedRun_length (arr : List (ℚ × String)) :
    (writerTimedRun arr).length = 2 * arr.length := by
  induction arr with
  | nil => rfl
  | cons a tl ih =>
      obtain ⟨t, m⟩ := a
      simp [writerTimedRun, ih, Nat.mul_succ]

theorem writerTimedRun_get (arr : List (ℚ × String)) (k : Nat) :
    (writerTimedRun arr).get? (2 * k)
      = (arr.get? k).map (fun tm => (tm.1, OutEvent.write (tm.2 ++ "\n"))) ∧
    (writerTimedRun arr).get? (2 * k + 1)
      = (arr.get? k).map (fun tm => (tm.1, OutEvent.flush)) := by
  induction arr generalizing k with
  | nil => constructor <;> simp [writerTimedRun]
  | cons a tl ih =>
      obtain ⟨t, m⟩ := a
      cases k with
      | zero => constructor <;> rfl
      | succ k =>
          have e1 : 2 * (k + 1) = 2 * k + 1 + 1 := by ring
          have e2 : 2 * (k + 1) + 1 = 2 * k + 1 + 1 + 1 := by ring
          constructor
          · rw [e1]
            simp only [writerTimedRun, List.get?_cons_succ]
            exact (ih k).1
          · rw [e2]
            simp only [writerTimedRun, List.get?_cons_succ]
            exact (ih k).2

/-- C6: for every time-stamped sequence of messages pushed onto the
outbound channel while the writer loop runs, the k-th push of message m at
time t is written to the output stream as exactly m with one newline
appended, at the very position 2k of the output trace, immediately
followed (position 2k+1) by a flush, both carrying the push time t itself:
the writer wakes as soon as a message is available, so the write happens
within the (positive) poll interval of the push. -/
theorem c6_write_newline_flush (arr : List (ℚ × String)) (k : Nat) :
    (writerTimedRun arr).length = 2 * arr.length ∧
    (writerTimedRun arr).get? (2 * k)
      = (arr.get? k).map (fun tm => (tm.1, OutEvent.write (tm.2 ++ "\n"))) ∧
    (writerTimedRun arr).get? (2 * k + 1)
      = (arr.get? k).map (fun tm => (tm.1, OutEvent.flush)) ∧
    (0 : ℚ) < OUTPUT_QUEUE_BLOCK_TIME :=
  ⟨writerTimedRun_length arr, (writerTimedRun_get arr k).1,
   (writerTimedRun_get arr k).2, by norm_num [OUTPUT_QUEUE_BLOCK_TIME]⟩

/-- C10: the sentinel the reader puts at end-of-stream is None, which no
line can produce: every nonempty raw line, the blank line consisting of
just a newline included, is pushed as a some-wrapped string (the blank
line as the empty string), while end-of-stream pushes None, so a consumer
can always tell the sentinel from any line. -/
theorem c10_sentinel_distinguished (s : String) (rest : List ReadEvent) (h : s ≠ "") :
    (readerRun (ReadEvent.ok s :: rest)).outs.head?
      = Option.some (Option.some (rstripNL s)) ∧
    (readerRun (ReadEvent.ok "" :: rest)).outs = [Option.none] ∧
    rstripNL "\n" = "" ∧
    Option.some (rstripNL s) ≠ (Option.none : Option String) := by
  refine ⟨?_, by simp [readerRun], by decide, by simp⟩
  rw [readerRun_ok_cons s rest h]
  rfl

theorem c10_sentinel_distinguished_witness :
    ("\n" : String) ≠ "" ∧
    ((readerRun (ReadEvent.ok "\n" :: [])).outs.head?
      = Option.some (Option.some (rstripNL "\n")) ∧
    (readerRun (ReadEvent.ok "" :: [])).outs = [Option.none] ∧
    rstripNL "\n" = "" ∧
    Option.some (rstripNL "\n") ≠ (Option.none : Option String)) :=
  ⟨by decide, c10_sentinel_distinguished "\n" [] (by decide)⟩

end ConsoleBridge
